import Mathlib

/-!
Shallow embedding of the MultiConvertPro document-conversion router
(`core/converters/document_converter.py`) and the job orchestrator
(`core/converters/main_converter.py`), together with theorems checking the
specification's claims about them.

Conventions used throughout:
* Python `str.lower()` / `str.upper()` are modelled by `pyLower` / `pyUpper`,
  which map `Char.toLower` / `Char.toUpper` over the characters (the format
  tokens involved are plain ASCII words).
* External engine processes (OnlyOffice, LibreOffice, the Python-library
  fallback, FFmpeg, PIL) are black boxes per the spec's scope; a behaviour
  function supplies, for each engine, what its `convert` call would do
  (progress values it emits, and whether it succeeds, fails or raises).
* Progress percentages delivered by the router are the Python float values
  `current_progress + p * progress_step / 100`; with `p ≤ 100` and
  `progress_step = 80 // n` every such value is an exact multiple of 1/100,
  so the model records progress in hundredths of a percent as a natural
  number (the delivered percent `x` is recorded as `100 * x`; full progress,
  percent 100, is recorded as 10000).  This rescaling is order-preserving
  and exact.
-/

/-- Python `str.lower()` on a string: lower-case every character. -/
def pyLower (s : String) : String := ⟨s.data.map Char.toLower⟩

/-- Python `str.upper()` on a string: upper-case every character. -/
def pyUpper (s : String) : String := ⟨s.data.map Char.toUpper⟩

/-- The three document conversion engines held by `DocumentConverter.__init__`:
`self.onlyoffice_engine`, `self.libreoffice_engine`, `self.fallback_engine`. -/
inductive EngineId where
  | onlyoffice
  | libreoffice
  | fallback
deriving DecidableEq

/-- Engine display name used in router messages:
`engine.__class__.__name__.replace('Engine', '')`. -/
def engineName : EngineId → String
  | .onlyoffice => "OnlyOffice"
  | .libreoffice => "LibreOffice"
  | .fallback => "Fallback"

/-- `DocumentConverter.engine_capabilities[...]['input']` for each engine. -/
def engineInputFormats : EngineId → List String
  | .onlyoffice =>
      ["txt", "docx", "doc", "odt", "rtf", "xlsx", "xls", "ods", "pptx", "ppt", "odp"]
  | .libreoffice =>
      ["docx", "doc", "odt", "rtf", "txt", "xlsx", "xls", "ods", "pptx", "ppt", "odp"]
  | .fallback => ["pdf", "docx", "txt", "rtf"]

/-- `DocumentConverter.engine_capabilities[...]['output']` for each engine. -/
def engineOutputFormats : EngineId → List String
  | .onlyoffice =>
      ["pdf", "docx", "odt", "rtf", "txt", "html", "xlsx", "ods", "pptx", "odp"]
  | .libreoffice =>
      ["pdf", "docx", "odt", "rtf", "txt", "xlsx", "ods", "pptx", "odp", "html"]
  | .fallback => ["txt", "docx", "pdf", "html"]

/-- An engine's static capability check for a format pair, as the router
computes it in `_can_use_onlyoffice` / `_can_use_libreoffice` /
`_can_use_fallback`: membership of the already-lowered input extension and of
the raw target format in the engine's declared lists. -/
def engine_can_convert (e : EngineId) (input_ext target_format : String) : Bool :=
  (engineInputFormats e).contains input_ext &&
    (engineOutputFormats e).contains target_format

/-- `DocumentConverter._can_use_onlyoffice`. -/
def can_use_onlyoffice (input_ext target_format : String) : Bool :=
  engine_can_convert .onlyoffice input_ext target_format

/-- `DocumentConverter._can_use_libreoffice`. -/
def can_use_libreoffice (input_ext target_format : String) : Bool :=
  engine_can_convert .libreoffice input_ext target_format

/-- `DocumentConverter._can_use_fallback`. -/
def can_use_fallback (input_ext target_format : String) : Bool :=
  engine_can_convert .fallback input_ext target_format

/-- `DocumentConverter.supported_formats['input']`. -/
def doc_supported_input_formats : List String :=
  ["pdf", "docx", "doc", "odt", "rtf", "txt", "xlsx", "xls", "ods", "pptx", "ppt", "odp"]

/-- `DocumentConverter.supported_formats['output']`. -/
def doc_supported_output_formats : List String :=
  ["pdf", "docx", "odt", "rtf", "txt", "xlsx", "ods", "pptx", "odp", "html"]

/-- The constructor-time environment of `DocumentConverter.__init__`: the
results of the two `is_available()` probes made while building the
`available_engines` list (the fallback engine is never probed there). -/
structure DCState where
  onlyofficeAvailable : Bool
  libreofficeAvailable : Bool
deriving DecidableEq

/-- The `available_engines` list built in `DocumentConverter.__init__`:
onlyoffice if its probe succeeded, then libreoffice if its probe succeeded. -/
def available_engines (s : DCState) : List EngineId :=
  (if s.onlyofficeAvailable then [EngineId.onlyoffice] else []) ++
    (if s.libreofficeAvailable then [EngineId.libreoffice] else [])

/-- The fifteen entries of the `DocumentConverter.conversion_methods` dict,
in source order. -/
def conversion_methods_table (s : DCState) : List ((String × String) × List EngineId) :=
  [(("txt", "pdf"), available_engines s),
   (("docx", "pdf"), available_engines s),
   (("doc", "pdf"), available_engines s),
   (("odt", "pdf"), available_engines s),
   (("rtf", "pdf"), available_engines s),
   (("xlsx", "pdf"), available_engines s),
   (("xls", "pdf"), available_engines s),
   (("ods", "pdf"), available_engines s),
   (("pptx", "pdf"), available_engines s),
   (("ppt", "pdf"), available_engines s),
   (("odp", "pdf"), available_engines s),
   (("pdf", "docx"), [EngineId.fallback]),
   (("pdf", "txt"), [EngineId.fallback]),
   (("docx", "txt"), available_engines s ++ [EngineId.fallback]),
   (("txt", "docx"), available_engines s ++ [EngineId.fallback])]

/-- `DocumentConverter.conversion_methods` as a map: the explicit matrix
from a (input extension, target format) pair to the priority-ordered engine
list (`dict` access modelled by association-list lookup; the keys are
pairwise distinct). -/
def conversion_methods (s : DCState) (key : String × String) : Option (List EngineId) :=
  (conversion_methods_table s).lookup key

/-- The secondary inference path of `DocumentConverter.convert` (lines
280-286): when the matrix yields no engines, ask the static capability
checks in priority order. -/
def inferred_engines (input_ext target_format : String) : List EngineId :=
  if can_use_onlyoffice input_ext target_format then
    [EngineId.onlyoffice, EngineId.libreoffice]
  else if can_use_libreoffice input_ext target_format then [EngineId.libreoffice]
  else if can_use_fallback input_ext target_format then [EngineId.fallback]
  else []

/-- The `engines_to_try` list that `DocumentConverter.convert` ends up with:
the matrix entry (`dict.get` with default `[]`), or, when that is empty, the
inference path. -/
def engines_to_try (s : DCState) (input_ext target_format : String) : List EngineId :=
  let fromMatrix := (conversion_methods s (input_ext, target_format)).getD []
  if fromMatrix.isEmpty then inferred_engines input_ext target_format else fromMatrix

/-- What one engine `convert` call does, as observed by the router:
`ok m` models `return True, m`; `fail m` models `return False, m`;
`exc m` models the call raising an exception with `str(e) = m`. -/
inductive PyOutcome where
  | ok (msg : String)
  | fail (msg : String)
  | exc (msg : String)
deriving DecidableEq

/-- The behaviour of one engine `convert` call within one router job:
the (engine-internal, 0-100) progress percents it pushes through the
progress callback, its outcome, and — environment fact never consulted by
the code — what a live `is_available()` probe would have returned at the
moment the attempt is made. -/
structure EngineRun where
  availableAtAttempt : Bool
  emits : List Nat
  outcome : PyOutcome

/-- Whether the run's outcome is a success (`convert` returned `True, _`). -/
def EngineRun.isSuccess (r : EngineRun) : Bool :=
  match r.outcome with
  | .ok _ => true
  | _ => false

/-- The error message the router records in `last_error` for a failed
attempt: the returned message for a clean failure, the wrapped
`"Erro no {engine}: {e}"` string for a raised exception. -/
def recordedError (beh : EngineId → EngineRun) (e : EngineId) : String :=
  match (beh e).outcome with
  | .ok m => m
  | .fail m => m
  | .exc m => "Erro no " ++ engineName e ++ ": " ++ m

/-- Result of a router `convert` call, instrumented with the progress
values delivered to the caller's callback (in hundredths of a percent, in
delivery order) and the list of engines whose `convert` was invoked (in
invocation order). -/
structure RouterResult where
  ok : Bool
  msg : String
  deliveries : List Nat
  invoked : List EngineId
deriving DecidableEq

/-- The attempt loop of `DocumentConverter.convert` (lines 291-338) over the
remaining `engines_to_try`, carrying `current_progress` and `last_error`.
Per attempt it delivers `progress_callback(current_progress, ...)`, then the
engine's own emissions mapped through
`current_progress + p * progress_step / 100` (recorded in hundredths:
`100 * current + p * step`); on success it delivers percent 100 and stops;
on failure or exception it delivers `current_progress + progress_step` when
another engine remains, records the error and moves on. -/
def tryEngines (beh : EngineId → EngineRun) (step : Nat) :
    List EngineId → Nat → String → RouterResult
  | [], _, lastError =>
      { ok := false
        msg := "Falha em todos os métodos de conversão. Último erro: " ++ lastError
        deliveries := []
        invoked := [] }
  | e :: rest, current, _ =>
      let run := beh e
      let attempt : List Nat :=
        current * 100 :: run.emits.map (fun p => current * 100 + p * step)
      match run.outcome with
      | .ok m =>
          { ok := true
            msg := "Documento convertido com sucesso usando " ++ engineName e ++ ": " ++ m
            deliveries := attempt ++ [10000]
            invoked := [e] }
      | .fail m =>
          let tail := tryEngines beh step rest (current + step) m
          { ok := tail.ok
            msg := tail.msg
            deliveries :=
              attempt ++ (if rest.isEmpty then [] else [(current + step) * 100]) ++
                tail.deliveries
            invoked := e :: tail.invoked }
      | .exc m =>
          let tail := tryEngines beh step rest (current + step)
            ("Erro no " ++ engineName e ++ ": " ++ m)
          { ok := tail.ok
            msg := tail.msg
            deliveries :=
              attempt ++ (if rest.isEmpty then [] else [(current + step) * 100]) ++
                tail.deliveries
            invoked := e :: tail.invoked }

/-- An input file as `DocumentConverter.convert` can observe it: the path
string (used in messages), the `Path(...).suffix` without its leading dot in
original case, and whether `os.path.exists` holds. -/
structure InputFile where
  path : String
  ext : String
  fexists : Bool

/-- `DocumentConverter.is_supported_input`. -/
def is_supported_input (f : InputFile) : Bool :=
  doc_supported_input_formats.contains (pyLower f.ext)

/-- `DocumentConverter.is_supported_output`. -/
def is_supported_output (format_name : String) : Bool :=
  doc_supported_output_formats.contains (pyLower format_name)

/-- `DocumentConverter.convert` (lines 239-342): validation, engine list
selection, then the attempt loop with `progress_step = 80 // n` and
`current_progress` starting at 20, after the initial percent-10 delivery. -/
def DocumentConverter_convert (s : DCState) (beh : EngineId → EngineRun)
    (f : InputFile) (target_format : String) : RouterResult :=
  if is_supported_input f = false then
    { ok := false, msg := "Formato de entrada não suportado: ." ++ f.ext
      deliveries := [], invoked := [] }
  else if is_supported_output target_format = false then
    { ok := false, msg := "Formato de saída não suportado: " ++ target_format
      deliveries := [], invoked := [] }
  else if f.fexists = false then
    { ok := false, msg := "Arquivo não encontrado: " ++ f.path
      deliveries := [], invoked := [] }
  else
    let input_ext := pyLower f.ext
    let engines := engines_to_try s input_ext target_format
    if engines.isEmpty then
      { ok := false
        msg := "Conversão de " ++ input_ext ++ " para " ++ target_format ++
          " não suportada pelos engines disponíveis"
        deliveries := [1000], invoked := [] }
    else
      let r := tryEngines beh (80 / engines.length) engines 20 ""
      { r with deliveries := 1000 :: r.deliveries }

/-- Boolean check that a recorded progress sequence is non-decreasing. -/
def nondecreasing : List Nat → Bool
  | [] => true
  | [_] => true
  | a :: b :: rest => decide (a ≤ b) && nondecreasing (b :: rest)

/-- The file-type categories of `MainConverter.detect_file_type`. -/
inductive FileType where
  | video
  | audio
  | image
  | document
  | unknown
deriving DecidableEq

/-- `MainConverter.extension_mapping`: extension (already lower-cased) to
file-type category. -/
def extension_mapping : String → Option FileType
  | "mp4" | "avi" | "mkv" | "mov" | "wmv" | "flv" | "webm" | "m4v"
  | "mpg" | "mpeg" | "3gp" | "ogv" => some .video
  | "mp3" | "wav" | "flac" | "aac" | "ogg" | "m4a" | "wma" | "opus"
  | "aiff" | "au" | "ra" => some .audio
  | "jpg" | "jpeg" | "png" | "gif" | "bmp" | "tiff" | "tif" | "webp"
  | "ico" | "svg" | "psd" | "raw" => some .image
  | "pdf" | "doc" | "docx" | "odt" | "rtf" | "txt" | "html" | "htm"
  | "xls" | "xlsx" | "ods" | "csv" | "ppt" | "pptx" | "odp" => some .document
  | _ => none

/-- A file on disk as the orchestrator can observe it: path pieces
(`Path(p).name`, `Path(p).stem`, suffix without its leading dot in original
case), whether `os.path.exists` holds, and what the content-sniffing branch
of `detect_file_type` (`filetype.guess` plus the mime-prefix mapping,
`'unknown'` when nothing matches or an exception escapes) would return for
its bytes. -/
structure SourceFile where
  path : String
  name : String
  stem : String
  ext : String
  fexists : Bool
  guessed : FileType

/-- `MainConverter.detect_file_type`: the extension mapping first, content
sniffing only when the extension is not mapped. -/
def detect_file_type (f : SourceFile) : FileType :=
  match extension_mapping (pyLower f.ext) with
  | some t => t
  | none => f.guessed

/-- `VideoConverter.supported_formats['input']`. -/
def video_input_formats : List String :=
  ["mp4", "avi", "mkv", "mov", "wmv", "flv", "webm", "m4v", "3gp", "ogv"]

/-- `VideoConverter.supported_formats['output']`. -/
def video_output_formats : List String :=
  ["mp4", "avi", "mkv", "mov", "wmv", "flv", "webm"]

/-- `AudioConverter.supported_formats['input']`. -/
def audio_input_formats : List String :=
  ["mp3", "wav", "flac", "aac", "ogg", "m4a", "wma", "opus", "aiff", "au"]

/-- `AudioConverter.supported_formats['output']`. -/
def audio_output_formats : List String :=
  ["mp3", "wav", "flac", "aac", "ogg", "m4a", "opus"]

/-- `ImageConverter.supported_formats['input']`. -/
def image_input_formats : List String :=
  ["jpg", "jpeg", "png", "gif", "bmp", "tiff", "tif", "webp", "ico", "ppm", "pgm", "pbm"]

/-- `ImageConverter.supported_formats['output']`. -/
def image_output_formats : List String :=
  ["jpg", "jpeg", "png", "gif", "bmp", "tiff", "webp", "ico"]

/-- The category table underlying `MainConverter.get_supported_formats`:
(input list, output list) per category, in the dict's iteration order
video, audio, image, document. -/
def supported_format_categories : List (List String × List String) :=
  [(video_input_formats, video_output_formats),
   (audio_input_formats, audio_output_formats),
   (image_input_formats, image_output_formats),
   (doc_supported_input_formats, doc_supported_output_formats)]

/-- `MainConverter.is_format_supported`: rejects identical formats up to
case, otherwise looks for a category whose (lower-cased) input list holds
the input format and whose output list holds the output format. -/
def is_format_supported (input_format output_format : String) : Bool :=
  if pyLower input_format = pyLower output_format then false
  else
    supported_format_categories.any fun c =>
      (c.1.map pyLower).contains (pyLower input_format) &&
        (c.2.map pyLower).contains (pyLower output_format)

/-- `ConversionJob` (`main_converter.py` lines 12-25); `input_file` stands
for `input_path` together with what the filesystem says about it. -/
structure ConversionJob where
  input_file : SourceFile
  output_path : String
  target_format : String
  quality : String
  status : String
  progress : Nat
  error_message : String

/-- Mutable state of a `MainConverter` instance: the job list, the index of
the next job to process, and the run flag. -/
structure MCState where
  jobs : List ConversionJob
  current_job_index : Nat
  is_converting : Bool

/-- The state `MainConverter.__init__` leaves behind. -/
def mcInitialState : MCState := ⟨[], 0, false⟩

/-- `MainConverter.add_conversion_job`: reject when the file is missing,
its type is unknown, or the conversion is unsupported; otherwise append a
fresh `pending` job. -/
def add_conversion_job (st : MCState) (f : SourceFile)
    (output_dir target_format quality : String) : MCState × Bool :=
  if f.fexists = false then (st, false)
  else if detect_file_type f = .unknown then (st, false)
  else
    let input_extension := pyLower f.ext
    if is_format_supported input_extension target_format = false then (st, false)
    else
      let job : ConversionJob :=
        { input_file := f
          output_path := output_dir ++ "/" ++ f.stem ++ "." ++ pyLower target_format
          target_format := target_format
          quality := quality
          status := "pending"
          progress := 0
          error_message := "" }
      ({ st with jobs := st.jobs ++ [job] }, true)

/-- `MainConverter.clear_jobs`: clears the queue only when no run is
active. -/
def clear_jobs (st : MCState) : MCState :=
  if st.is_converting then st else { st with jobs := [], current_job_index := 0 }

/-- Environment facts consumed by the orchestrator: whether
`os.makedirs(output_dir, exist_ok=True)` succeeds (and the exception text
when not), the `str(AttributeError)` text produced when a converter object
has no `can_convert` method, and what the specialized converter's `convert`
call does for a job (spec scope: those converter calls are black boxes). -/
structure MCEnv where
  canMakeDir : Bool
  mkdirError : String
  missingAttrMsg : FileType → String
  convOutcome : ConversionJob → PyOutcome

/-- One file's classification inside the validation loop of
`MainConverter.validate_conversion_setup`. -/
inductive FileClass where
  | convertible
  | sameFormat
  | unsupported
deriving DecidableEq

/-- Classification of one file against the target format (lines 230-247 of
`main_converter.py`). -/
def classify_file (f : SourceFile) (target_format : String) : FileClass :=
  if detect_file_type f = .unknown then .unsupported
  else if pyLower (pyLower f.ext) = pyLower target_format then .sameFormat
  else if is_format_supported (pyLower f.ext) target_format then .convertible
  else .unsupported

/-- Display entry a file contributes to `unsupported_files`: the bare name
for an unknown type, `"name (ext → target)"` for an unsupported pair. -/
def unsupported_entry (f : SourceFile) (target_format : String) : String :=
  if detect_file_type f = .unknown then f.name
  else f.name ++ " (" ++ pyLower f.ext ++ " → " ++ target_format ++ ")"

/-- The `"N arquivo(s) ..."` warning lines built at the end of
`validate_conversion_setup`, with the two-name preview and the
`"e mais k arquivo(s)"` suffix. -/
def validation_warning (names : List String) (text : String) : String :=
  let base := toString names.length ++ " arquivo(s) " ++ text ++ ": " ++
    String.intercalate ", " (names.take 2)
  if 2 < names.length then
    base ++ " e mais " ++ toString (names.length - 2) ++ " arquivo(s)"
  else base

/-- `MainConverter.validate_conversion_setup` (lines 204-272). -/
def validate_conversion_setup (env : MCEnv) (files : List SourceFile)
    (output_dir target_format : String) : Bool × String :=
  if files.isEmpty then (false, "Nenhum arquivo selecionado para conversão")
  else if output_dir = "" ∨ output_dir = "Selecione uma pasta de destino" then
    (false, "Selecione uma pasta de destino")
  else if env.canMakeDir = false then
    (false, "Não foi possível criar/acessar a pasta de destino: " ++ env.mkdirError)
  else
    let missing := files.filter fun f => f.fexists = false
    if missing.isEmpty = false then
      (false, "Arquivos não encontrados: " ++
        String.intercalate ", " (missing.map (·.path)))
    else
      let convertible := files.filter fun f => classify_file f target_format = .convertible
      let same_format := (files.filter fun f => classify_file f target_format = .sameFormat).map (·.name)
      let unsupported := (files.filter fun f => classify_file f target_format = .unsupported).map
        (unsupported_entry · target_format)
      if convertible.isEmpty then
        if same_format.isEmpty = false then
          (false, "Não é possível converter arquivos para o mesmo formato. Arquivos já em " ++
            pyUpper target_format ++ ": " ++ String.intercalate ", " same_format)
        else if unsupported.isEmpty = false then
          (false, "Nenhum arquivo pode ser convertido para " ++ pyUpper target_format ++
            ". Arquivos não suportados: " ++ String.intercalate ", " unsupported)
        else
          (false, "Formato de saída \x27" ++ target_format ++ "\x27 não é suportado")
      else
        let warnings :=
          (if same_format.isEmpty then [] else
            [validation_warning same_format
              ("já estão em " ++ pyUpper target_format ++ " e serão ignorados")]) ++
          (if unsupported.isEmpty then [] else
            [validation_warning unsupported "não podem ser convertidos e serão ignorados"])
        if warnings.isEmpty then (true, "Configuração válida")
        else (true, "Aviso: " ++ String.intercalate "; " warnings)

/-- `MainConverter.start_conversion` (lines 274-313). -/
def start_conversion (env : MCEnv) (st : MCState) (files : List SourceFile)
    (output_dir target_format quality : String) : MCState × Bool :=
  if st.is_converting then (st, false)
  else
    let v := validate_conversion_setup env files output_dir target_format
    if v.1 = false then (st, false)
    else
      let st1 := clear_jobs st
      let st2 := files.foldl
        (fun s f => (add_conversion_job s f output_dir target_format quality).1) st1
      if st2.jobs.isEmpty then (st2, false)
      else ({ st2 with is_converting := true, current_job_index := 0 }, true)

/-- `can_convert` dispatch in `process_next_job` line 357: only
`DocumentConverter` defines a `can_convert` method; on the video, audio and
image converters the attribute lookup raises `AttributeError` (`none`
here), which the surrounding `try` turns into a failed job. -/
def converter_can_convert : FileType → String → String → Option Bool
  | .document, i, o =>
      some ((doc_supported_input_formats.contains (pyLower i)) &&
        (doc_supported_output_formats.contains (pyLower o)))
  | _, _, _ => none

/-- Human name of a category, as interpolated into the
`"... não suportada pelo conversor {file_type}"` message. -/
def fileTypeName : FileType → String
  | .video => "video"
  | .audio => "audio"
  | .image => "image"
  | .document => "document"
  | .unknown => "unknown"

/-- The try-block of `process_next_job` (lines 336-387) for one job:
returns (success, message, whether a specialized converter `convert` call
was actually made). -/
def attempt_job (env : MCEnv) (j : ConversionJob) : Bool × String × Bool :=
  let ftype := detect_file_type j.input_file
  if ftype = .unknown then
    (false, "Tipo de arquivo não suportado: " ++ j.input_file.name, false)
  else
    let input_extension := pyLower j.input_file.ext
    match converter_can_convert ftype input_extension j.target_format with
    | none => (false, "Erro durante a conversão: " ++ env.missingAttrMsg ftype, false)
    | some false =>
        (false, "Conversão " ++ input_extension ++ " → " ++ j.target_format ++
          " não suportada pelo conversor " ++ fileTypeName ftype, false)
    | some true =>
        match env.convOutcome j with
        | .ok m => (true, m, true)
        | .fail m => (false, m, true)
        | .exc m => (false, "Erro durante a conversão: " ++ m, true)

/-- `MainConverter.finish_conversion`: drops the run flag (the tally it
prints is derived state, not stored). -/
def finish_conversion (st : MCState) : MCState := { st with is_converting := false }

/-- Result of one `process_next_job` call: the new state, the returned
`(success, has_more_jobs)` pair, and — instrumentation — whether a
specialized converter was invoked. -/
structure StepResult where
  state : MCState
  success : Bool
  has_more_jobs : Bool
  converterInvoked : Bool

/-- `MainConverter.process_next_job` (lines 315-409): bail out unchanged
when no run is active or the queue is exhausted; otherwise mark the current
job `processing`, run the try-block, store `completed` (with progress 100)
or `failed` (with the error message), advance the index and finish the run
after the last job. -/
def process_next_job (env : MCEnv) (st : MCState) : StepResult :=
  if h : st.is_converting = true ∧ st.current_job_index < st.jobs.length then
    let j := st.jobs.get ⟨st.current_job_index, h.2⟩
    let j1 := { j with status := "processing" }
    let jobs1 := st.jobs.set st.current_job_index j1
    let r := attempt_job env j
    let j2 :=
      if r.1 then { j1 with status := "completed", progress := 100 }
      else { j1 with status := "failed", error_message := r.2.1 }
    let jobs2 := jobs1.set st.current_job_index j2
    let has_more := decide (st.current_job_index + 1 < st.jobs.length)
    let stBase : MCState :=
      { st with jobs := jobs2, current_job_index := st.current_job_index + 1 }
    ⟨if has_more then stBase else finish_conversion stBase, r.1, has_more, r.2.2⟩
  else ⟨st, false, false, false⟩

/-- `MainConverter.stop_conversion`. -/
def stop_conversion (st : MCState) : MCState :=
  if st.is_converting then { st with is_converting := false } else st

/-- The dictionary returned by `MainConverter.get_conversion_summary`. -/
structure ConversionSummary where
  total : Nat
  completed : Nat
  failed : Nat
  pending : Nat
  processing : Nat
  is_converting : Bool
deriving DecidableEq

/-- `MainConverter.get_conversion_summary`. -/
def get_conversion_summary (st : MCState) : ConversionSummary :=
  { total := st.jobs.length
    completed := (st.jobs.filter fun j => j.status == "completed").length
    failed := (st.jobs.filter fun j => j.status == "failed").length
    pending := (st.jobs.filter fun j => j.status == "pending").length
    processing := (st.jobs.filter fun j => j.status == "processing").length
    is_converting := st.is_converting }

/-- The orchestrator operations a caller can perform on a `MainConverter`. -/
inductive MCOp where
  | start (files : List SourceFile) (output_dir target_format quality : String)
  | addJob (f : SourceFile) (output_dir target_format quality : String)
  | processNext
  | stop
  | clear

/-- Apply one orchestrator operation to the state. -/
def applyOp (env : MCEnv) (st : MCState) : MCOp → MCState
  | .start files d t q => (start_conversion env st files d t q).1
  | .addJob f d t q => (add_conversion_job st f d t q).1
  | .processNext => (process_next_job env st).state
  | .stop => stop_conversion st
  | .clear => clear_jobs st

/-- Run a sequence of orchestrator operations from a fresh `MainConverter`. -/
def runOps (env : MCEnv) (ops : List MCOp) : MCState :=
  ops.foldl (applyOp env) mcInitialState

/-! Helper lemmas about the router's attempt loop. -/

lemma tryEngines_first_success (beh : EngineId → EngineRun) (step : Nat) :
    ∀ (pre : List EngineId) (e : EngineId) (post : List EngineId)
      (current : Nat) (lastErr : String),
      (∀ x ∈ pre, (beh x).isSuccess = false) → (beh e).isSuccess = true →
      (tryEngines beh step (pre ++ e :: post) current lastErr).ok = true ∧
      (tryEngines beh step (pre ++ e :: post) current lastErr).invoked = pre ++ [e] := by
  intro pre
  induction pre with
  | nil =>
      intro e post current lastErr _ hs
      unfold EngineRun.isSuccess at hs
      rcases ho : (beh e).outcome with m | m | m
      · simp [tryEngines, ho]
      · rw [ho] at hs; simp at hs
      · rw [ho] at hs; simp at hs
  | cons x xs ih =>
      intro e post current lastErr hpre hs
      have hx : (beh x).isSuccess = false := hpre x (by simp)
      unfold EngineRun.isSuccess at hx
      rcases ho : (beh x).outcome with m | m | m
      · rw [ho] at hx; simp at hx
      · have := ih e post (current + step) m (fun y hy => hpre y (by simp [hy])) hs
        simpa [tryEngines, ho] using this
      · have := ih e post (current + step)
          ("Erro no " ++ engineName x ++ ": " ++ m)
          (fun y hy => hpre y (by simp [hy])) hs
        simpa [tryEngines, ho] using this

lemma tryEngines_all_fail (beh : EngineId → EngineRun) (step : Nat) :
    ∀ (engines : List EngineId) (current : Nat) (lastErr : String) (elast : EngineId),
      engines.getLast? = some elast →
      (∀ x ∈ engines, (beh x).isSuccess = false) →
      (tryEngines beh step engines current lastErr).ok = false ∧
      (tryEngines beh step engines current lastErr).msg =
        "Falha em todos os métodos de conversão. Último erro: " ++ recordedError beh elast ∧
      (tryEngines beh step engines current lastErr).invoked = engines := by
  intro engines
  induction engines with
  | nil => intro current lastErr elast hlast; simp at hlast
  | cons x xs ih =>
      intro current lastErr elast hlast hfail
      have hx : (beh x).isSuccess = false := hfail x (by simp)
      unfold EngineRun.isSuccess at hx
      cases xs with
      | nil =>
          simp only [List.getLast?_singleton, Option.some.injEq] at hlast
          subst hlast
          rcases ho : (beh x).outcome with m | m | m
          · rw [ho] at hx; simp at hx
          · simp [tryEngines, ho, recordedError]
          · simp [tryEngines, ho, recordedError]
      | cons y rest =>
          have hlast' : (y :: rest).getLast? = some elast := by
            rwa [List.getLast?_cons_cons] at hlast
          have hfail' : ∀ z ∈ y :: rest, (beh z).isSuccess = false :=
            fun z hz => hfail z (by simp [hz])
          rcases ho : (beh x).outcome with m | m | m
          · rw [ho] at hx; simp at hx
          · have := ih (current + step) m elast hlast' hfail'
            simpa [tryEngines, ho] using this
          · have := ih (current + step) ("Erro no " ++ engineName x ++ ": " ++ m)
              elast hlast' hfail'
            simpa [tryEngines, ho] using this

lemma mem_available_engines {s : DCState} {e : EngineId}
    (h : e ∈ available_engines s) : e = .onlyoffice ∨ e = .libreoffice := by
  rcases s with ⟨b1, b2⟩
  cases b1 <;> cases b2 <;> simp [available_engines] at h <;> tauto

lemma available_engines_nodup (s : DCState) : (available_engines s).Nodup := by
  rcases s with ⟨b1, b2⟩
  cases b1 <;> cases b2 <;> simp [available_engines]

lemma available_engines_fallback_nodup (s : DCState) :
    (available_engines s ++ [EngineId.fallback]).Nodup := by
  rcases s with ⟨b1, b2⟩
  cases b1 <;> cases b2 <;> simp [available_engines]

lemma lookup_some_mem_pair {α β : Type} [BEq α] [LawfulBEq α]
    {xs : List (α × β)} {k : α} {v : β} (h : xs.lookup k = some v) : (k, v) ∈ xs := by
  induction xs with
  | nil => simp [List.lookup] at h
  | cons p xs ih =>
      obtain ⟨a, b⟩ := p
      rw [List.lookup] at h
      split at h
      · rename_i heq
        have : k = a := eq_of_beq heq
        subst this
        injection h with h
        subst h
        exact List.mem_cons_self _ _
      · exact List.mem_cons_of_mem _ (ih h)

lemma conversion_methods_table_nodup (s : DCState) :
    ∀ p ∈ conversion_methods_table s, p.2.Nodup := by
  rcases s with ⟨b1, b2⟩
  cases b1 <;> cases b2 <;> decide

lemma conversion_methods_nodup {s : DCState} {k : String × String} {l : List EngineId}
    (h : conversion_methods s k = some l) : l.Nodup :=
  conversion_methods_table_nodup s (k, l) (lookup_some_mem_pair h)

lemma inferred_engines_nodup (i o : String) : (inferred_engines i o).Nodup := by
  unfold inferred_engines
  split_ifs <;> simp

lemma engines_to_try_nodup (s : DCState) (i o : String) :
    (engines_to_try s i o).Nodup := by
  unfold engines_to_try
  cases h : conversion_methods s (i, o) with
  | none => simp [inferred_engines_nodup]
  | some l =>
      simp only [Option.getD_some]
      by_cases hl : l.isEmpty
      · simp [hl, inferred_engines_nodup]
      · simpa [hl] using conversion_methods_nodup h

/-- Claim C1: for a format pair with a non-empty ordered candidate list, the
router stops at the first succeeding candidate: `convert` reports success,
the invoked engines are exactly the failing prefix followed by the winner
(so nothing after the winner is invoked), and no engine is invoked twice. -/
theorem C1_router_stops_at_first_success
    (s : DCState) (beh : EngineId → EngineRun) (f : InputFile) (target_format : String)
    (pre : List EngineId) (e : EngineId) (post : List EngineId)
    (h1 : is_supported_input f = true)
    (h2 : is_supported_output target_format = true)
    (h3 : f.fexists = true)
    (hel : engines_to_try s (pyLower f.ext) target_format = pre ++ e :: post)
    (hpre : ∀ x ∈ pre, (beh x).isSuccess = false)
    (hs : (beh e).isSuccess = true) :
    (DocumentConverter_convert s beh f target_format).ok = true ∧
    (DocumentConverter_convert s beh f target_format).invoked = pre ++ [e] ∧
    ∀ x, (DocumentConverter_convert s beh f target_format).invoked.count x ≤ 1 := by
  have hne : (engines_to_try s (pyLower f.ext) target_format).isEmpty = false := by
    rw [hel]; cases pre <;> simp
  obtain ⟨hok, hinv⟩ := tryEngines_first_success beh
    (80 / (engines_to_try s (pyLower f.ext) target_format).length)
    pre e post 20 "" hpre hs
  rw [← hel] at hok hinv
  have hres : (DocumentConverter_convert s beh f target_format).ok = true ∧
      (DocumentConverter_convert s beh f target_format).invoked = pre ++ [e] := by
    unfold DocumentConverter_convert
    simp only [h1, h2, h3, Bool.true_eq_false, if_false, hne]
    exact ⟨hok, hinv⟩
  refine ⟨hres.1, hres.2, fun x => ?_⟩
  rw [hres.2]
  have hsub : (pre ++ [e]).Sublist (pre ++ e :: post) :=
    List.Sublist.append (List.Sublist.refl pre)
      (List.singleton_sublist.mpr (by simp))
  have hnd : (pre ++ [e]).Nodup := by
    have h0 := engines_to_try_nodup s (pyLower f.ext) target_format
    rw [hel] at h0
    exact h0.sublist hsub
  exact List.nodup_iff_count_le_one.mp hnd x

/-- All-succeeding engine behaviour used by witnesses. -/
def sampleBehOk : EngineId → EngineRun := fun _ => ⟨true, [50], .ok "arquivo gerado"⟩

/-- All-failing engine behaviour used by witnesses. -/
def sampleBehFail : EngineId → EngineRun := fun _ => ⟨true, [], .fail "sem suporte"⟩

/-- A plain-text input file used by witnesses. -/
def sampleTxtFile : InputFile := ⟨"/docs/nota.txt", "txt", true⟩

/-- A PDF input file used by witnesses. -/
def samplePdfFile : InputFile := ⟨"/docs/laudo.pdf", "pdf", true⟩

theorem C1_router_stops_at_first_success_witness :
    (DocumentConverter_convert ⟨true, true⟩ sampleBehOk sampleTxtFile "pdf").ok = true ∧
    (DocumentConverter_convert ⟨true, true⟩ sampleBehOk sampleTxtFile "pdf").invoked =
      [] ++ [EngineId.onlyoffice] ∧
    ∀ x, (DocumentConverter_convert ⟨true, true⟩ sampleBehOk
      sampleTxtFile "pdf").invoked.count x ≤ 1 :=
  C1_router_stops_at_first_success ⟨true, true⟩ sampleBehOk sampleTxtFile "pdf"
    [] .onlyoffice [.libreoffice] (by decide) (by decide) rfl (by decide)
    (by simp) (by decide)

/-- Claim C2: when every candidate fails (cleanly or by raising), `convert`
returns failure whose message carries exactly the last-attempted
candidate's recorded error (a raised exception being recorded as that
candidate's failure, not propagated), and every candidate was attempted. -/
theorem C2_all_fail_last_error
    (s : DCState) (beh : EngineId → EngineRun) (f : InputFile) (target_format : String)
    (elast : EngineId)
    (h1 : is_supported_input f = true)
    (h2 : is_supported_output target_format = true)
    (h3 : f.fexists = true)
    (hlast : (engines_to_try s (pyLower f.ext) target_format).getLast? = some elast)
    (hfail : ∀ x ∈ engines_to_try s (pyLower f.ext) target_format,
      (beh x).isSuccess = false) :
    (DocumentConverter_convert s beh f target_format).ok = false ∧
    (DocumentConverter_convert s beh f target_format).msg =
      "Falha em todos os métodos de conversão. Último erro: " ++ recordedError beh elast ∧
    (DocumentConverter_convert s beh f target_format).invoked =
      engines_to_try s (pyLower f.ext) target_format := by
  have hne : (engines_to_try s (pyLower f.ext) target_format).isEmpty = false := by
    cases h : engines_to_try s (pyLower f.ext) target_format with
    | nil => rw [h] at hlast; simp at hlast
    | cons a l => simp
  obtain ⟨hok, hmsg, hinv⟩ := tryEngines_all_fail beh
    (80 / (engines_to_try s (pyLower f.ext) target_format).length)
    (engines_to_try s (pyLower f.ext) target_format) 20 "" elast hlast hfail
  unfold DocumentConverter_convert
  simp only [h1, h2, h3, Bool.true_eq_false, if_false, hne]
  exact ⟨hok, hmsg, hinv⟩

theorem C2_all_fail_last_error_witness :
    (DocumentConverter_convert ⟨true, true⟩ sampleBehFail sampleTxtFile "pdf").ok = false ∧
    (DocumentConverter_convert ⟨true, true⟩ sampleBehFail sampleTxtFile "pdf").msg =
      "Falha em todos os métodos de conversão. Último erro: " ++
        recordedError sampleBehFail .libreoffice ∧
    (DocumentConverter_convert ⟨true, true⟩ sampleBehFail sampleTxtFile "pdf").invoked =
      engines_to_try ⟨true, true⟩ (pyLower sampleTxtFile.ext) "pdf" :=
  C2_all_fail_last_error ⟨true, true⟩ sampleBehFail sampleTxtFile "pdf" .libreoffice
    (by decide) (by decide) rfl (by decide) (by decide)

/-- Claim C3: a format pair with no explicit matrix entry and no engine
capability support makes `convert` (on an existing, format-supported input)
fail without invoking any engine. -/
theorem C3_no_candidate_no_invocation
    (s : DCState) (beh : EngineId → EngineRun) (f : InputFile) (target_format : String)
    (h1 : is_supported_input f = true)
    (h2 : is_supported_output target_format = true)
    (h3 : f.fexists = true)
    (hcm : conversion_methods s (pyLower f.ext, target_format) = none)
    (ho : can_use_onlyoffice (pyLower f.ext) target_format = false)
    (hl : can_use_libreoffice (pyLower f.ext) target_format = false)
    (hf : can_use_fallback (pyLower f.ext) target_format = false) :
    (DocumentConverter_convert s beh f target_format).ok = false ∧
    (DocumentConverter_convert s beh f target_format).invoked = [] := by
  have hempty : engines_to_try s (pyLower f.ext) target_format = [] := by
    unfold engines_to_try inferred_engines
    simp [hcm, ho, hl, hf]
  unfold DocumentConverter_convert
  simp [h1, h2, h3, hempty]

lemma tryEngines_invoked_sublist (beh : EngineId → EngineRun) (step : Nat) :
    ∀ (engines : List EngineId) (current : Nat) (lastErr : String),
      (tryEngines beh step engines current lastErr).invoked.Sublist engines := by
  intro engines
  induction engines with
  | nil => intro current lastErr; simp [tryEngines]
  | cons e rest ih =>
      intro current lastErr
      rcases ho : (beh e).outcome with m | m | m
      · have h0 := (List.nil_sublist rest).cons₂ e
        simp only [tryEngines, ho]
        exact h0
      · simpa [tryEngines, ho] using (ih (current + step) m).cons₂ e
      · simpa [tryEngines, ho] using
          (ih (current + step) ("Erro no " ++ engineName e ++ ": " ++ m)).cons₂ e

lemma engine_can_convert_libreoffice_of_onlyoffice {i o : String}
    (h : engine_can_convert .onlyoffice i o = true) :
    engine_can_convert .libreoffice i o = true := by
  unfold engine_can_convert at h ⊢
  rw [Bool.and_eq_true] at h ⊢
  obtain ⟨hi, ho⟩ := h
  rw [List.elem_iff] at hi ho
  refine ⟨?_, ?_⟩
  · rw [List.elem_iff]
    simp only [engineInputFormats, List.mem_cons, List.not_mem_nil, or_false] at hi ⊢
    tauto
  · rw [List.elem_iff]
    simp only [engineOutputFormats, List.mem_cons, List.not_mem_nil, or_false] at ho ⊢
    tauto

lemma can_convert_of_mem_available {s : DCState} {e : EngineId} {i o : String}
    (he : e ∈ available_engines s)
    (ho : engine_can_convert .onlyoffice i o = true)
    (hl : engine_can_convert .libreoffice i o = true) :
    engine_can_convert e i o = true := by
  rcases mem_available_engines he with rfl | rfl <;> assumption

lemma conversion_methods_table_can_convert (s : DCState) :
    ∀ p ∈ conversion_methods_table s, ∀ e ∈ p.2,
      engine_can_convert e p.1.1 p.1.2 = true := by
  rcases s with ⟨b1, b2⟩
  cases b1 <;> cases b2 <;> decide

lemma conversion_methods_can_convert {s : DCState} {i o : String} {l : List EngineId}
    {e : EngineId} (h : conversion_methods s (i, o) = some l) (he : e ∈ l) :
    engine_can_convert e i o = true :=
  conversion_methods_table_can_convert s ((i, o), l) (lookup_some_mem_pair h) e he

lemma inferred_engines_can_convert {i o : String} {e : EngineId}
    (he : e ∈ inferred_engines i o) : engine_can_convert e i o = true := by
  unfold inferred_engines at he
  split_ifs at he with h1 h2 h3
  · simp only [List.mem_cons, List.not_mem_nil, or_false] at he
    rcases he with rfl | rfl
    · exact h1
    · exact engine_can_convert_libreoffice_of_onlyoffice h1
  · simp only [List.mem_singleton] at he; subst he; exact h2
  · simp only [List.mem_singleton] at he; subst he; exact h3
  · simp at he

lemma mem_engines_to_try_can_convert {s : DCState} {i o : String} {e : EngineId}
    (he : e ∈ engines_to_try s i o) : engine_can_convert e i o = true := by
  unfold engines_to_try at he
  cases h : conversion_methods s (i, o) with
  | none =>
      rw [h] at he
      simp only [Option.getD_none, List.isEmpty_nil, if_true] at he
      exact inferred_engines_can_convert he
  | some l =>
      rw [h] at he
      simp only [Option.getD_some] at he
      by_cases hl : l.isEmpty
      · rw [if_pos hl] at he
        exact inferred_engines_can_convert he
      · rw [if_neg hl] at he
        exact conversion_methods_can_convert h he

lemma nondecreasing_iff_chain :
    ∀ l : List Nat, nondecreasing l = true ↔ List.Chain' (· ≤ ·) l
  | [] => by simp [nondecreasing]
  | [a] => by simp [nondecreasing]
  | a :: b :: l => by
      rw [nondecreasing, Bool.and_eq_true, decide_eq_true_iff,
        nondecreasing_iff_chain (b :: l), List.chain'_cons]

lemma nondecreasing_iff_pairwise (l : List Nat) :
    nondecreasing l = true ↔ List.Pairwise (· ≤ ·) l := by
  rw [nondecreasing_iff_chain, List.chain'_iff_pairwise]

lemma attempt_pairwise {emits : List Nat} (step current : Nat)
    (hpe : List.Pairwise (· ≤ ·) emits) :
    List.Pairwise (· ≤ ·)
      (current * 100 :: emits.map fun p => current * 100 + p * step) := by
  rw [List.pairwise_cons]
  refine ⟨?_, ?_⟩
  · intro b hb
    simp only [List.mem_map] at hb
    obtain ⟨p, -, rfl⟩ := hb
    exact Nat.le_add_right _ _
  · exact hpe.map _ fun a b hab =>
      Nat.add_le_add_left (Nat.mul_le_mul_right step hab) _

lemma attempt_bounds {emits : List Nat} (step current : Nat)
    (h100 : ∀ p ∈ emits, p ≤ 100) :
    ∀ v ∈ current * 100 :: emits.map fun p => current * 100 + p * step,
      current * 100 ≤ v ∧ v ≤ (current + step) * 100 := by
  intro v hv
  simp only [List.mem_cons, List.mem_map] at hv
  rcases hv with rfl | ⟨p, hp, rfl⟩
  · exact ⟨Nat.le_refl _, Nat.mul_le_mul_right 100 (Nat.le_add_right _ _)⟩
  · refine ⟨Nat.le_add_right _ _, ?_⟩
    have h1 : p * step ≤ 100 * step := Nat.mul_le_mul_right step (h100 p hp)
    calc current * 100 + p * step ≤ current * 100 + 100 * step :=
          Nat.add_le_add_left h1 _
      _ = (current + step) * 100 := by ring

lemma pairwise_three_append {l1 l2 l3 : List Nat} {cut : Nat}
    (h1 : List.Pairwise (· ≤ ·) l1) (h2 : ∀ x ∈ l1, x ≤ cut)
    (hm : ∀ x ∈ l2, x = cut)
    (h3 : List.Pairwise (· ≤ ·) l3) (h4 : ∀ x ∈ l3, cut ≤ x)
    (h5 : List.Pairwise (· ≤ ·) l2) :
    List.Pairwise (· ≤ ·) (l1 ++ l2 ++ l3) := by
  rw [List.pairwise_append]
  refine ⟨?_, h3, ?_⟩
  · rw [List.pairwise_append]
    exact ⟨h1, h5, fun a ha b hb => (hm b hb) ▸ h2 a ha⟩
  · intro a ha b hb
    rcases List.mem_append.mp ha with ha1 | ha2
    · exact Nat.le_trans (h2 a ha1) (h4 b hb)
    · exact (hm a ha2) ▸ h4 b hb

lemma tryEngines_pairwise (beh : EngineId → EngineRun) (step : Nat) :
    ∀ (engines : List EngineId) (current : Nat) (lastErr : String),
      (∀ e ∈ engines, List.Pairwise (· ≤ ·) (beh e).emits ∧
        ∀ p ∈ (beh e).emits, p ≤ 100) →
      (current + engines.length * step) * 100 ≤ 10000 →
      List.Pairwise (· ≤ ·) (tryEngines beh step engines current lastErr).deliveries ∧
      ∀ v ∈ (tryEngines beh step engines current lastErr).deliveries,
        current * 100 ≤ v ∧ v ≤ 10000 := by
  intro engines
  induction engines with
  | nil => intro current lastErr _ _; simp [tryEngines]
  | cons e rest ih =>
      intro current lastErr hgood hbound
      have hge := hgood e (by simp)
      have hstep1 : (current + step) * 100 ≤ 10000 := by
        refine Nat.le_trans (Nat.mul_le_mul_right 100 ?_) hbound
        have : step ≤ (rest.length + 1) * step := by
          have h1 : 1 * step ≤ (rest.length + 1) * step :=
            Nat.mul_le_mul_right step (Nat.succ_le_succ (Nat.zero_le _))
          simpa using h1
        simpa [List.length_cons] using Nat.add_le_add_left this current
      have hcur : current * 100 ≤ (current + step) * 100 :=
        Nat.mul_le_mul_right 100 (Nat.le_add_right _ _)
      have hax := attempt_pairwise step current hge.1
      have hab := attempt_bounds step current hge.2
      have hbound' : (current + step + rest.length * step) * 100 ≤ 10000 := by
        have : current + step + rest.length * step =
            current + (rest.length + 1) * step := by ring
        rw [this]
        simpa [List.length_cons] using hbound
      have hgood' : ∀ x ∈ rest, List.Pairwise (· ≤ ·) (beh x).emits ∧
          ∀ p ∈ (beh x).emits, p ≤ 100 := fun x hx => hgood x (by simp [hx])
      rcases ho : (beh e).outcome with m | m | m
      · -- success: attempt ++ [10000]
        constructor
        · simp only [tryEngines, ho]
          rw [List.pairwise_append]
          refine ⟨hax, List.pairwise_singleton _ _, ?_⟩
          intro a ha b hb
          simp only [List.mem_singleton] at hb
          subst hb
          exact Nat.le_trans ((hab a ha).2) hstep1
        · simp only [tryEngines, ho]
          intro v hv
          rcases List.mem_append.mp hv with hv1 | hv2
          · exact ⟨(hab v hv1).1, Nat.le_trans ((hab v hv1).2) hstep1⟩
          · simp only [List.mem_singleton] at hv2
            subst hv2
            exact ⟨Nat.le_trans hcur hstep1, Nat.le_refl _⟩
      · -- clean failure
        obtain ⟨ihp, ihb⟩ := ih (current + step) m hgood' hbound'
        constructor
        · simp only [tryEngines, ho]
          refine pairwise_three_append hax (fun x hx => (hab x hx).2) ?_ ihp
            (fun x hx => (ihb x hx).1) ?_
          · intro x hx
            rcases hrest : rest.isEmpty with _ | _ <;> rw [hrest] at hx <;> simp at hx
            exact hx
          · rcases hrest : rest.isEmpty with _ | _ <;> simp [hrest]
        · simp only [tryEngines, ho]
          intro v hv
          rcases List.mem_append.mp hv with hv1 | hv3
          · rcases List.mem_append.mp hv1 with hv1 | hv2
            · exact ⟨(hab v hv1).1, Nat.le_trans ((hab v hv1).2) hstep1⟩
            · rcases hrest : rest.isEmpty with _ | _ <;> rw [hrest] at hv2 <;>
                simp at hv2
              subst hv2
              exact ⟨hcur, hstep1⟩
          · exact ⟨Nat.le_trans hcur (ihb v hv3).1, (ihb v hv3).2⟩
      · -- raised exception
        obtain ⟨ihp, ihb⟩ := ih (current + step)
          ("Erro no " ++ engineName e ++ ": " ++ m) hgood' hbound'
        constructor
        · simp only [tryEngines, ho]
          refine pairwise_three_append hax (fun x hx => (hab x hx).2) ?_ ihp
            (fun x hx => (ihb x hx).1) ?_
          · intro x hx
            rcases hrest : rest.isEmpty with _ | _ <;> rw [hrest] at hx <;> simp at hx
            exact hx
          · rcases hrest : rest.isEmpty with _ | _ <;> simp [hrest]
        · simp only [tryEngines, ho]
          intro v hv
          rcases List.mem_append.mp hv with hv1 | hv3
          · rcases List.mem_append.mp hv1 with hv1 | hv2
            · exact ⟨(hab v hv1).1, Nat.le_trans ((hab v hv1).2) hstep1⟩
            · rcases hrest : rest.isEmpty with _ | _ <;> rw [hrest] at hv2 <;>
                simp at hv2
              subst hv2
              exact ⟨hcur, hstep1⟩
          · exact ⟨Nat.le_trans hcur (ihb v hv3).1, (ihb v hv3).2⟩

lemma tryEngines_ok_mem_10000 (beh : EngineId → EngineRun) (step : Nat) :
    ∀ (engines : List EngineId) (current : Nat) (lastErr : String),
      (tryEngines beh step engines current lastErr).ok = true →
      10000 ∈ (tryEngines beh step engines current lastErr).deliveries := by
  intro engines
  induction engines with
  | nil => intro current lastErr h; simp [tryEngines] at h
  | cons e rest ih =>
      intro current lastErr h
      rcases ho : (beh e).outcome with m | m | m
      · simp [tryEngines, ho]
      · rw [show (tryEngines beh step (e :: rest) current lastErr).ok =
            (tryEngines beh step rest (current + step) m).ok by simp [tryEngines, ho]]
          at h
        simp only [tryEngines, ho, List.mem_append]
        exact Or.inr (ih (current + step) m h)
      · rw [show (tryEngines beh step (e :: rest) current lastErr).ok =
            (tryEngines beh step rest (current + step)
              ("Erro no " ++ engineName e ++ ": " ++ m)).ok by simp [tryEngines, ho]]
          at h
        simp only [tryEngines, ho, List.mem_append]
        exact Or.inr (ih (current + step) _ h)

/-- Hypothesis of claim C9 on one engine run: the engine pushes
non-decreasing progress percents, each in 0..100. -/
def goodEmits (r : EngineRun) : Prop :=
  List.Pairwise (· ≤ ·) r.emits ∧ ∀ p ∈ r.emits, p ≤ 100

/-- Behaviour of a sole candidate that reports 100 percent progress and then
fails, used against claim C9. -/
def behEmit100Fail : EngineId → EngineRun := fun _ => ⟨true, [100], .fail "falhou no fim"⟩

/-- Counterexample to claim C9: converting pdf to txt routes to the single
fallback candidate, so `progress_step = 80` and the candidate's own 100
percent report is delivered to the caller as
`20 + 100 * 80 / 100 = 100` percent (recorded 10000) — yet the candidate
then fails, so full progress is delivered without successful completion:
100 is not delivered only at success. -/
theorem C9_counterexample :
    (DocumentConverter_convert ⟨true, true⟩ behEmit100Fail samplePdfFile "txt").ok = false ∧
    10000 ∈ (DocumentConverter_convert ⟨true, true⟩ behEmit100Fail
      samplePdfFile "txt").deliveries := by
  decide

/-- Claim C9 amended: when every engine emits non-decreasing progress in
0..100, the percents delivered to the caller within one `convert` call are
non-decreasing, and successful completion delivers full progress (100
percent, recorded 10000); however full progress can also be delivered on a
failing run (see the counterexample), so "equals 100 only at success" had
to be weakened. -/
theorem C9_amended_monotone_progress
    (s : DCState) (beh : EngineId → EngineRun) (f : InputFile) (target_format : String)
    (hgood : ∀ e, goodEmits (beh e)) :
    nondecreasing (DocumentConverter_convert s beh f target_format).deliveries = true ∧
    ((DocumentConverter_convert s beh f target_format).ok = true →
      10000 ∈ (DocumentConverter_convert s beh f target_format).deliveries) := by
  unfold DocumentConverter_convert
  by_cases h1 : is_supported_input f = false
  · rw [if_pos h1]; exact ⟨rfl, by intro h; simp at h⟩
  · rw [if_neg h1]
    by_cases h2 : is_supported_output target_format = false
    · rw [if_pos h2]; exact ⟨rfl, by intro h; simp at h⟩
    · rw [if_neg h2]
      by_cases h3 : f.fexists = false
      · rw [if_pos h3]; exact ⟨rfl, by intro h; simp at h⟩
      · rw [if_neg h3]
        by_cases h4 : (engines_to_try s (pyLower f.ext) target_format).isEmpty
        · rw [if_pos h4]; exact ⟨rfl, by intro h; simp at h⟩
        · rw [if_neg h4]
          simp only
          set engines := engines_to_try s (pyLower f.ext) target_format with hE
          set step := 80 / engines.length with hS
          have hb : (20 + engines.length * step) * 100 ≤ 10000 := by
            have hdiv : engines.length * step ≤ 80 := by
              rw [hS, Nat.mul_comm]
              exact Nat.div_mul_le_self 80 engines.length
            have : 20 + engines.length * step ≤ 100 := by omega
            calc (20 + engines.length * step) * 100 ≤ 100 * 100 :=
                  Nat.mul_le_mul_right 100 this
              _ = 10000 := by norm_num
          obtain ⟨hpw, hbd⟩ := tryEngines_pairwise beh step engines 20 ""
            (fun e _ => hgood e) hb
          constructor
          · rw [nondecreasing_iff_pairwise, List.pairwise_cons]
            refine ⟨fun b hb' => ?_, hpw⟩
            have := (hbd b hb').1
            omega
          · intro hok
            exact List.mem_cons_of_mem _ (tryEngines_ok_mem_10000 beh step engines 20 "" hok)

theorem C9_amended_monotone_progress_witness :
    nondecreasing (DocumentConverter_convert ⟨true, true⟩ sampleBehOk
      sampleTxtFile "pdf").deliveries = true ∧
    ((DocumentConverter_convert ⟨true, true⟩ sampleBehOk sampleTxtFile "pdf").ok = true →
      10000 ∈ (DocumentConverter_convert ⟨true, true⟩ sampleBehOk
        sampleTxtFile "pdf").deliveries) :=
  C9_amended_monotone_progress ⟨true, true⟩ sampleBehOk sampleTxtFile "pdf"
    (fun e => ⟨by simp [sampleBehOk], by simp [sampleBehOk]⟩)

/-- Formalisation of claim C4 as stated: every engine the router invokes
passes, at the moment of its attempt, both its own static capability check
and a live availability check. -/
def attempt_time_checks (s : DCState) (beh : EngineId → EngineRun)
    (f : InputFile) (target_format : String) : Prop :=
  ∀ e ∈ (DocumentConverter_convert s beh f target_format).invoked,
    (beh e).availableAtAttempt = true ∧
      engine_can_convert e (pyLower f.ext) target_format = true

/-- Engine behaviour whose live availability has flapped to false by
attempt time (every attempt also fails). -/
def behUnavailable : EngineId → EngineRun := fun _ => ⟨false, [], .fail "indisponível"⟩

/-- Counterexample to claim C4: with both engines available at construction
but unavailable by attempt time, the router still invokes them — it never
re-checks `is_available` before an attempt, so the claimed attempt-time
availability guarantee is false. -/
theorem C4_counterexample :
    ¬ attempt_time_checks ⟨true, true⟩ behUnavailable sampleTxtFile "pdf" := by
  intro h
  have := (h .onlyoffice (by decide)).1
  simp [behUnavailable] at this

/-- Claim C4 amended: every engine the router invokes does satisfy its own
static capability check (`engine_capabilities`) for the job's format pair;
but availability is only consulted when `conversion_methods` is built at
construction time, never re-checked at attempt time. -/
theorem C4_amended_static_capability
    (s : DCState) (beh : EngineId → EngineRun) (f : InputFile) (target_format : String)
    (e : EngineId)
    (he : e ∈ (DocumentConverter_convert s beh f target_format).invoked) :
    engine_can_convert e (pyLower f.ext) target_format = true := by
  unfold DocumentConverter_convert at he
  by_cases h1 : is_supported_input f = false
  · rw [if_pos h1] at he; simp at he
  · rw [if_neg h1] at he
    by_cases h2 : is_supported_output target_format = false
    · rw [if_pos h2] at he; simp at he
    · rw [if_neg h2] at he
      by_cases h3 : f.fexists = false
      · rw [if_pos h3] at he; simp at he
      · rw [if_neg h3] at he
        by_cases h4 : (engines_to_try s (pyLower f.ext) target_format).isEmpty
        · rw [if_pos h4] at he; simp at he
        · rw [if_neg h4] at he
          simp only at he
          have hsub := tryEngines_invoked_sublist beh
            (80 / (engines_to_try s (pyLower f.ext) target_format).length)
            (engines_to_try s (pyLower f.ext) target_format) 20 ""
          exact mem_engines_to_try_can_convert (hsub.subset he)

theorem C4_amended_static_capability_witness :
    engine_can_convert .onlyoffice (pyLower sampleTxtFile.ext) "pdf" = true :=
  C4_amended_static_capability ⟨true, true⟩ sampleBehFail sampleTxtFile "pdf"
    .onlyoffice (by decide)

theorem C3_no_candidate_no_invocation_witness :
    (DocumentConverter_convert ⟨true, true⟩ sampleBehOk samplePdfFile "odt").ok = false ∧
    (DocumentConverter_convert ⟨true, true⟩ sampleBehOk samplePdfFile "odt").invoked = [] :=
  C3_no_candidate_no_invocation ⟨true, true⟩ sampleBehOk samplePdfFile "odt"
    (by decide) (by decide) rfl (by decide) (by decide) (by decide) (by decide)

example : engines_to_try ⟨true, true⟩ "txt" "pdf" = [.onlyoffice, .libreoffice] := by decide

example : engines_to_try ⟨false, false⟩ "txt" "pdf" = [.onlyoffice, .libreoffice] := by decide

example : engines_to_try ⟨false, true⟩ "docx" "txt" = [.libreoffice, .fallback] := by decide

example : engines_to_try ⟨true, true⟩ "pdf" "odt" = [] := by decide

example :
    (DocumentConverter_convert ⟨true, true⟩
      (fun _ => ⟨true, [100], .fail "x"⟩) ⟨"/a.pdf", "pdf", true⟩ "txt").deliveries =
      [1000, 2000, 10000] := by decide

/-! Orchestrator claims. -/

/-- Sample orchestrator environment for witnesses: directory creation
works, every specialized converter call succeeds. -/
def sampleEnv : MCEnv :=
  { canMakeDir := true
    mkdirError := ""
    missingAttrMsg := fun _ => "objeto sem o atributo can_convert"
    convOutcome := fun _ => .ok "Conversão concluída" }

/-- A convertible docx file on disk, used by witnesses. -/
def srcDoc1 : SourceFile := ⟨"/docs/um.docx", "um.docx", "um", "docx", true, .document⟩

/-- A docx file that does not exist on disk, used by witnesses. -/
def srcDoc2Missing : SourceFile :=
  ⟨"/docs/dois.docx", "dois.docx", "dois", "docx", false, .document⟩

/-- Another convertible docx file on disk, used by witnesses. -/
def srcDoc3 : SourceFile := ⟨"/docs/tres.docx", "tres.docx", "tres", "docx", true, .document⟩

/-- A pdf file on disk, used by witnesses. -/
def srcPdf : SourceFile := ⟨"/docs/laudo.pdf", "laudo.pdf", "laudo", "pdf", true, .document⟩

/-- Claim C5: a format pair that is identical up to letter case is rejected
by `is_format_supported`, and `add_conversion_job` refuses to queue a job
whose (lower-cased) input extension equals the target format up to case, so
such a pair never becomes a job. -/
theorem C5_same_format_never_a_job :
    (∀ i o : String, pyLower i = pyLower o → is_format_supported i o = false) ∧
    (∀ (st : MCState) (f : SourceFile) (output_dir target_format quality : String),
      pyLower (pyLower f.ext) = pyLower target_format →
      add_conversion_job st f output_dir target_format quality = (st, false)) := by
  have hfmt : ∀ i o : String, pyLower i = pyLower o → is_format_supported i o = false := by
    intro i o h
    unfold is_format_supported
    rw [if_pos h]
  refine ⟨hfmt, ?_⟩
  intro st f output_dir target_format quality h
  unfold add_conversion_job
  by_cases h1 : f.fexists = false
  · rw [if_pos h1]
  · rw [if_neg h1]
    by_cases h2 : detect_file_type f = .unknown
    · rw [if_pos h2]
    · rw [if_neg h2]
      have hsupp : is_format_supported (pyLower f.ext) target_format = false :=
        hfmt _ _ h
      simp [hsupp]

theorem C5_same_format_never_a_job_witness :
    is_format_supported "PDF" "pdf" = false ∧
    add_conversion_job mcInitialState srcPdf "/out" "PDF" "Alta" =
      (mcInitialState, false) :=
  ⟨C5_same_format_never_a_job.1 "PDF" "pdf" (by decide),
   C5_same_format_never_a_job.2 mcInitialState srcPdf "/out" "PDF" "Alta" (by decide)⟩

lemma validate_fails_on_missing (env : MCEnv) (files : List SourceFile)
    (output_dir target_format : String) (f : SourceFile)
    (hf : f ∈ files) (hex : f.fexists = false) :
    (validate_conversion_setup env files output_dir target_format).1 = false := by
  unfold validate_conversion_setup
  by_cases h1 : files.isEmpty
  · rw [if_pos h1]
  · rw [if_neg h1]
    by_cases h2 : output_dir = "" ∨ output_dir = "Selecione uma pasta de destino"
    · rw [if_pos h2]
    · rw [if_neg h2]
      by_cases h3 : env.canMakeDir = false
      · rw [if_pos h3]
      · rw [if_neg h3]
        have hmem : f ∈ files.filter fun g => g.fexists = false := by
          rw [List.mem_filter]
          exact ⟨hf, by simp [hex]⟩
        have hex2 : ∃ x ∈ files, x.fexists = false := ⟨f, hf, hex⟩
        simp [hex2]

/-- Counterexample to claim C6: starting a run of three files whose second
file is missing does not proceed at all — `validate_conversion_setup`
rejects the whole run on the missing file, `start_conversion` returns
false, no job is created, and the summary reports completed = 0 and
failed = 0, not completed = 2 and failed = 1. -/
theorem C6_counterexample :
    (start_conversion sampleEnv mcInitialState [srcDoc1, srcDoc2Missing, srcDoc3]
      "/out" "pdf" "Média").2 = false ∧
    (start_conversion sampleEnv mcInitialState [srcDoc1, srcDoc2Missing, srcDoc3]
      "/out" "pdf" "Média").1.jobs.length = 0 ∧
    (get_conversion_summary (start_conversion sampleEnv mcInitialState
      [srcDoc1, srcDoc2Missing, srcDoc3] "/out" "pdf" "Média").1).completed = 0 ∧
    (get_conversion_summary (start_conversion sampleEnv mcInitialState
      [srcDoc1, srcDoc2Missing, srcDoc3] "/out" "pdf" "Média").1).failed = 0 := by
  decide

/-- Claim C6 amended: a run started with three files of which the second
does not exist is rejected up front — `start_conversion` returns false and
leaves the state untouched (so no job is created, no engine invoked, and
the missing file never becomes a failed job). -/
theorem C6_amended_missing_file_aborts_run (env : MCEnv) (st : MCState)
    (f1 f2 f3 : SourceFile) (output_dir target_format quality : String)
    (h : f2.fexists = false) :
    start_conversion env st [f1, f2, f3] output_dir target_format quality = (st, false) := by
  unfold start_conversion
  by_cases hc : st.is_converting
  · rw [if_pos hc]
  · rw [if_neg hc]
    have hv := validate_fails_on_missing env [f1, f2, f3] output_dir target_format f2
      (by simp) h
    simp [hv]

theorem C6_amended_missing_file_aborts_run_witness :
    start_conversion sampleEnv mcInitialState [srcDoc1, srcDoc2Missing, srcDoc3]
      "/saida" "txt" "Média" = (mcInitialState, false) :=
  C6_amended_missing_file_aborts_run sampleEnv mcInitialState srcDoc1 srcDoc2Missing
    srcDoc3 "/saida" "txt" "Média" (by decide)

/-- Claim C8: while a run is in progress, `start_conversion` returns false
and leaves the job list and the current job index unchanged. -/
theorem C8_start_rejected_while_converting (env : MCEnv) (st : MCState)
    (files : List SourceFile) (output_dir target_format quality : String)
    (h : st.is_converting = true) :
    (start_conversion env st files output_dir target_format quality).2 = false ∧
    (start_conversion env st files output_dir target_format quality).1.jobs = st.jobs ∧
    (start_conversion env st files output_dir target_format
      quality).1.current_job_index = st.current_job_index := by
  unfold start_conversion
  rw [if_pos h]
  exact ⟨rfl, rfl, rfl⟩

theorem C8_start_rejected_while_converting_witness :
    (start_conversion sampleEnv ⟨[], 0, true⟩ [srcDoc1] "/out" "pdf" "Média").2 = false ∧
    (start_conversion sampleEnv ⟨[], 0, true⟩ [srcDoc1] "/out" "pdf"
      "Média").1.jobs = (⟨[], 0, true⟩ : MCState).jobs ∧
    (start_conversion sampleEnv ⟨[], 0, true⟩ [srcDoc1] "/out" "pdf"
      "Média").1.current_job_index = (⟨[], 0, true⟩ : MCState).current_job_index :=
  C8_start_rejected_while_converting sampleEnv ⟨[], 0, true⟩ [srcDoc1] "/out" "pdf"
    "Média" rfl

lemma process_next_job_halted (env : MCEnv) (st : MCState)
    (h : st.is_converting = false) :
    process_next_job env st = ⟨st, false, false, false⟩ := by
  unfold process_next_job
  rw [dif_neg]
  intro hc
  rw [h] at hc
  exact Bool.false_ne_true hc.1

/-- Claim C7: stopping after job 1 of a 3-job run and before job 2 starts
leaves job 1 with its final status (completed or failed), keeps jobs 2 and
3 pending forever — any further `process_next_job` call returns the state
unchanged and invokes no converter — and the run is halted. -/
theorem C7_stop_between_jobs (env : MCEnv) (j1 j2 j3 : ConversionJob)
    (_h2 : j2.status = "pending") (_h3 : j3.status = "pending") :
    (∃ jd, (process_next_job env ⟨[j1, j2, j3], 0, true⟩).state.jobs.get? 0 = some jd ∧
      (jd.status = "completed" ∨ jd.status = "failed")) ∧
    (stop_conversion (process_next_job env ⟨[j1, j2, j3], 0, true⟩).state).jobs =
      (process_next_job env ⟨[j1, j2, j3], 0, true⟩).state.jobs ∧
    (stop_conversion (process_next_job env
      ⟨[j1, j2, j3], 0, true⟩).state).jobs.get? 1 = some j2 ∧
    (stop_conversion (process_next_job env
      ⟨[j1, j2, j3], 0, true⟩).state).jobs.get? 2 = some j3 ∧
    (stop_conversion (process_next_job env
      ⟨[j1, j2, j3], 0, true⟩).state).is_converting = false ∧
    (∀ env2, process_next_job env2
      (stop_conversion (process_next_job env ⟨[j1, j2, j3], 0, true⟩).state) =
      ⟨stop_conversion (process_next_job env ⟨[j1, j2, j3], 0, true⟩).state,
        false, false, false⟩) ∧
    (∀ envs : List MCEnv, envs.foldl (fun s e => (process_next_job e s).state)
      (stop_conversion (process_next_job env ⟨[j1, j2, j3], 0, true⟩).state) =
      stop_conversion (process_next_job env ⟨[j1, j2, j3], 0, true⟩).state) := by
  have hcond : (⟨[j1, j2, j3], 0, true⟩ : MCState).is_converting = true ∧
      (⟨[j1, j2, j3], 0, true⟩ : MCState).current_job_index <
        (⟨[j1, j2, j3], 0, true⟩ : MCState).jobs.length := ⟨rfl, by norm_num⟩
  have hstate : (process_next_job env ⟨[j1, j2, j3], 0, true⟩).state =
      ⟨[(if (attempt_job env j1).1
          then ({ j1 with status := "completed", progress := 100 } : ConversionJob)
          else ({ j1 with status := "failed", error_message := (attempt_job env j1).2.1 } :
            ConversionJob)), j2, j3], 1, true⟩ := by
    unfold process_next_job
    rw [dif_pos hcond]
    by_cases hr : (attempt_job env j1).1 <;> simp [hr]
  have hstop : stop_conversion (process_next_job env ⟨[j1, j2, j3], 0, true⟩).state =
      ⟨(process_next_job env ⟨[j1, j2, j3], 0, true⟩).state.jobs, 1, false⟩ := by
    rw [hstate]
    unfold stop_conversion
    rw [if_pos rfl]
  refine ⟨?_, ?_, ?_, ?_, ?_, ?_, ?_⟩
  · rw [hstate]
    by_cases hr : (attempt_job env j1).1 <;> simp [hr]
  · rw [hstop]
  · rw [hstop, hstate]; rfl
  · rw [hstop, hstate]; rfl
  · rw [hstop]
  · intro env2
    apply process_next_job_halted
    rw [hstop]
  · intro envs
    induction envs with
    | nil => rfl
    | cons e rest ih =>
        rw [List.foldl_cons, process_next_job_halted e _ (by rw [hstop]), ih]

/-- A pending job used by witnesses. -/
def samplePendingJob : ConversionJob :=
  { input_file := srcDoc1
    output_path := "/out/um.pdf"
    target_format := "pdf"
    quality := "Média"
    status := "pending"
    progress := 0
    error_message := "" }

theorem C7_stop_between_jobs_witness :
    (∃ jd, (process_next_job sampleEnv
      ⟨[samplePendingJob, samplePendingJob, samplePendingJob], 0, true⟩).state.jobs.get? 0 =
        some jd ∧ (jd.status = "completed" ∨ jd.status = "failed")) ∧
    (stop_conversion (process_next_job sampleEnv
      ⟨[samplePendingJob, samplePendingJob, samplePendingJob], 0, true⟩).state).jobs =
      (process_next_job sampleEnv
        ⟨[samplePendingJob, samplePendingJob, samplePendingJob], 0, true⟩).state.jobs ∧
    (stop_conversion (process_next_job sampleEnv
      ⟨[samplePendingJob, samplePendingJob, samplePendingJob],
        0, true⟩).state).jobs.get? 1 = some samplePendingJob ∧
    (stop_conversion (process_next_job sampleEnv
      ⟨[samplePendingJob, samplePendingJob, samplePendingJob],
        0, true⟩).state).jobs.get? 2 = some samplePendingJob ∧
    (stop_conversion (process_next_job sampleEnv
      ⟨[samplePendingJob, samplePendingJob, samplePendingJob],
        0, true⟩).state).is_converting = false ∧
    (∀ env2, process_next_job env2
      (stop_conversion (process_next_job sampleEnv
        ⟨[samplePendingJob, samplePendingJob, samplePendingJob], 0, true⟩).state) =
      ⟨stop_conversion (process_next_job sampleEnv
        ⟨[samplePendingJob, samplePendingJob, samplePendingJob], 0, true⟩).state,
        false, false, false⟩) ∧
    (∀ envs : List MCEnv, envs.foldl (fun s e => (process_next_job e s).state)
      (stop_conversion (process_next_job sampleEnv
        ⟨[samplePendingJob, samplePendingJob, samplePendingJob], 0, true⟩).state) =
      stop_conversion (process_next_job sampleEnv
        ⟨[samplePendingJob, samplePendingJob, samplePendingJob], 0, true⟩).state) :=
  C7_stop_between_jobs sampleEnv samplePendingJob samplePendingJob samplePendingJob
    rfl rfl

/-- The four job statuses the orchestrator ever assigns. -/
def validStatus (s : String) : Prop :=
  s = "pending" ∨ s = "processing" ∨ s = "completed" ∨ s = "failed"

/-- Every job in the queue carries one of the four statuses. -/
def statusInv (st : MCState) : Prop := ∀ j ∈ st.jobs, validStatus j.status

lemma statusInv_add (st : MCState) (f : SourceFile) (d t q : String)
    (h : statusInv st) : statusInv (add_conversion_job st f d t q).1 := by
  unfold add_conversion_job
  by_cases h1 : f.fexists = false
  · rw [if_pos h1]; exact h
  · rw [if_neg h1]
    by_cases h2 : detect_file_type f = .unknown
    · rw [if_pos h2]; exact h
    · rw [if_neg h2]
      by_cases h3 : is_format_supported (pyLower f.ext) t = false
      · rw [if_pos h3]; exact h
      · rw [if_neg h3]
        intro j hj
        simp only [List.mem_append, List.mem_singleton] at hj
        rcases hj with hj | rfl
        · exact h j hj
        · exact Or.inl rfl

lemma statusInv_foldl_add (d t q : String) :
    ∀ (files : List SourceFile) (st : MCState), statusInv st →
      statusInv (files.foldl (fun s f => (add_conversion_job s f d t q).1) st) := by
  intro files
  induction files with
  | nil => intro st h; exact h
  | cons f rest ih =>
      intro st h
      rw [List.foldl_cons]
      exact ih _ (statusInv_add st f d t q h)

lemma statusInv_clear (st : MCState) (h : statusInv st) : statusInv (clear_jobs st) := by
  unfold clear_jobs
  by_cases hc : st.is_converting
  · rw [if_pos hc]; exact h
  · rw [if_neg hc]; intro j hj; simp at hj

lemma statusInv_start (env : MCEnv) (st : MCState) (files : List SourceFile)
    (d t q : String) (h : statusInv st) :
    statusInv (start_conversion env st files d t q).1 := by
  unfold start_conversion
  by_cases hc : st.is_converting
  · rw [if_pos hc]; exact h
  · rw [if_neg hc]
    by_cases hv : (validate_conversion_setup env files d t).1 = false
    · rw [if_pos hv]; exact h
    · rw [if_neg hv]
      have hfold := statusInv_foldl_add d t q files (clear_jobs st) (statusInv_clear st h)
      by_cases he : ((files.foldl (fun s f => (add_conversion_job s f d t q).1)
          (clear_jobs st)).jobs.isEmpty : Bool)
      · rw [if_pos he]; exact hfold
      · rw [if_neg he]
        intro j hj
        exact hfold j hj

lemma statusInv_process (env : MCEnv) (st : MCState) (h : statusInv st) :
    statusInv (process_next_job env st).state := by
  unfold process_next_job
  by_cases hc : st.is_converting = true ∧ st.current_job_index < st.jobs.length
  · rw [dif_pos hc]
    have hjobs2 : ∀ jx ∈ (st.jobs.set st.current_job_index
        { st.jobs.get ⟨st.current_job_index, hc.2⟩ with status := "processing" }).set
          st.current_job_index
          (if (attempt_job env (st.jobs.get ⟨st.current_job_index, hc.2⟩)).1 then
            { st.jobs.get ⟨st.current_job_index, hc.2⟩ with
                status := "completed", progress := 100 }
          else
            { st.jobs.get ⟨st.current_job_index, hc.2⟩ with
                status := "failed",
                error_message :=
                  (attempt_job env (st.jobs.get ⟨st.current_job_index, hc.2⟩)).2.1 }),
        validStatus jx.status := by
      intro jx hjx
      rcases List.mem_or_eq_of_mem_set hjx with hj1 | rfl
      · rcases List.mem_or_eq_of_mem_set hj1 with hj2 | rfl
        · exact h jx hj2
        · exact Or.inr (Or.inl rfl)
      · by_cases hr : (attempt_job env (st.jobs.get ⟨st.current_job_index, hc.2⟩)).1
        · rw [if_pos hr]
          exact Or.inr (Or.inr (Or.inl rfl))
        · rw [if_neg hr]
          exact Or.inr (Or.inr (Or.inr rfl))
    dsimp only
    by_cases hm : (decide (st.current_job_index + 1 < st.jobs.length) : Bool)
    · rw [if_pos hm]
      exact hjobs2
    · rw [if_neg hm]
      exact hjobs2
  · rw [dif_neg hc]; exact h

lemma statusInv_stop (st : MCState) (h : statusInv st) : statusInv (stop_conversion st) := by
  unfold stop_conversion
  by_cases hc : st.is_converting
  · rw [if_pos hc]; exact h
  · rw [if_neg hc]; exact h

lemma statusInv_applyOp (env : MCEnv) (st : MCState) (op : MCOp) (h : statusInv st) :
    statusInv (applyOp env st op) := by
  cases op with
  | start files d t q => exact statusInv_start env st files d t q h
  | addJob f d t q => exact statusInv_add st f d t q h
  | processNext => exact statusInv_process env st h
  | stop => exact statusInv_stop st h
  | clear => exact statusInv_clear st h

lemma statusInv_runOps (env : MCEnv) (ops : List MCOp) : statusInv (runOps env ops) := by
  unfold runOps
  have hgen : ∀ (l : List MCOp) (st : MCState), statusInv st →
      statusInv (l.foldl (applyOp env) st) := by
    intro l
    induction l with
    | nil => intro st h; exact h
    | cons op rest ih =>
        intro st h
        rw [List.foldl_cons]
        exact ih _ (statusInv_applyOp env st op h)
  exact hgen ops mcInitialState (by intro j hj; simp [mcInitialState] at hj)

lemma count_partition :
    ∀ jobs : List ConversionJob, (∀ j ∈ jobs, validStatus j.status) →
      jobs.length =
        (jobs.filter fun j => j.status == "completed").length +
        (jobs.filter fun j => j.status == "failed").length +
        (jobs.filter fun j => j.status == "pending").length +
        (jobs.filter fun j => j.status == "processing").length := by
  intro jobs
  induction jobs with
  | nil => intro _; simp
  | cons j l ih =>
      intro h
      have hj := h j (by simp)
      have hl := ih fun x hx => h x (by simp [hx])
      rcases hj with hs | hs | hs | hs <;>
        simp [List.filter_cons, hs] <;> omega

/-- Claim C10: after any sequence of orchestrator operations, every job's
status is one of pending/processing/completed/failed, and the summary's
counts partition the job list: total = completed + failed + pending +
processing. -/
theorem C10_status_set_and_summary_partition (env : MCEnv) (ops : List MCOp) :
    (∀ j ∈ (runOps env ops).jobs, validStatus j.status) ∧
    (get_conversion_summary (runOps env ops)).total =
      (get_conversion_summary (runOps env ops)).completed +
      (get_conversion_summary (runOps env ops)).failed +
      (get_conversion_summary (runOps env ops)).pending +
      (get_conversion_summary (runOps env ops)).processing := by
  have hinv := statusInv_runOps env ops
  exact ⟨hinv, count_partition _ hinv⟩
